/-
Verification of the callback retry subsystem of fastapi-sendparcel.

Shallow embedding of:
  * src/fastapi_sendparcel/retry.py        (compute_next_retry_at, process_due_retries)
  * src/fastapi_sendparcel/routes/callbacks.py  (provider_callback, the retry producer)
  * src/fastapi_sendparcel/config.py       (SendparcelConfig)
  * src/fastapi_sendparcel/protocols.py    (CallbackRetryStore interface)

Python strings that travel through the byte-level UTF-8 boundary are modelled as
their sequences of Unicode code points (List Nat); byte strings as List Nat of
byte values.  Exceptions are modelled with Except / Option; clock reads are
passed explicitly.  Store and repository calls are recorded in an event trace so
that call/no-call properties of the processor can be stated.
-/
import Mathlib

namespace Sendparcel

/-- JSON-compatible payload values (the scheduler treats them as opaque).
A Python `str` is its sequence of Unicode code points. -/
inductive JsonVal where
  | str (s : List Nat)
  | num (n : Int)
  | bool (b : Bool)
  | null
  deriving DecidableEq, Repr

/-- A callback payload: mapping of string keys to JSON-compatible values. -/
abbrev Payload := List (String × JsonVal)

/-- Request/record headers: mapping of string keys to string values. -/
abbrev Headers := List (String × String)

/-- Python `payload.get(k)`: the stored value, with a stored JSON `null`
indistinguishable from an absent key (both give Python `None`). -/
def dictGet (d : Payload) (k : String) : Option JsonVal :=
  match d.lookup k with
  | some JsonVal.null => none
  | some v => some v
  | none => none

/-- Python `d[k] = v` on a dict: replace the binding for `k` (or add it). -/
def dictSet (d : Payload) (k : String) (v : JsonVal) : Payload :=
  d.filter (fun p => p.1 ≠ k) ++ [(k, v)]

/-- UTF-8 encoding of one Unicode scalar value (Python `str.encode("utf-8")`,
per code point).  Callers must exclude the surrogate range first — Python
raises `UnicodeEncodeError` there, modelled by the `pyEncodableUtf8` guard at
the call sites — so this total function is only applied to scalar values. -/
def utf8EncodeChar (c : Nat) : List Nat :=
  if c < 0x80 then [c]
  else if c < 0x800 then [0xc0 + c / 64, 0x80 + c % 64]
  else if c < 0x10000 then [0xe0 + c / 4096, 0x80 + c / 64 % 64, 0x80 + c % 64]
  else [0xf0 + c / 262144, 0x80 + c / 4096 % 64, 0x80 + c / 64 % 64, 0x80 + c % 64]

/-- UTF-8 encoding of a Python string (sequence of code points). -/
def utf8Encode (s : List Nat) : List Nat :=
  (s.map utf8EncodeChar).flatten

/-- Is `b` a UTF-8 continuation byte? -/
def isCont (b : Nat) : Bool :=
  decide (0x80 ≤ b) && decide (b < 0xc0)

/-- Strict UTF-8 decoding of a single code point given the lead byte and the
remaining bytes: returns the code point and the bytes left over.  Rejects
stray continuation bytes, overlong encodings, surrogates and code points
above U+10FFFF, exactly as Python's strict `bytes.decode("utf-8")` does. -/
def utf8DecodeChar (b1 : Nat) (rest : List Nat) : Option (Nat × List Nat) :=
  if b1 < 0x80 then some (b1, rest)
  else if b1 < 0xc2 then none
  else if b1 < 0xe0 then
    match rest with
    | b2 :: rest2 =>
      if isCont b2 then some ((b1 - 0xc0) * 64 + (b2 - 0x80), rest2) else none
    | [] => none
  else if b1 < 0xf0 then
    match rest with
    | b2 :: b3 :: rest3 =>
      if isCont b2 && isCont b3 then
        if decide (0x800 ≤ (b1 - 0xe0) * 4096 + (b2 - 0x80) * 64 + (b3 - 0x80))
            && !(decide (0xd800 ≤ (b1 - 0xe0) * 4096 + (b2 - 0x80) * 64 +
                  (b3 - 0x80))
                && decide ((b1 - 0xe0) * 4096 + (b2 - 0x80) * 64 +
                  (b3 - 0x80) < 0xe000))
        then some ((b1 - 0xe0) * 4096 + (b2 - 0x80) * 64 + (b3 - 0x80), rest3)
        else none
      else none
    | _ => none
  else if b1 < 0xf5 then
    match rest with
    | b2 :: b3 :: b4 :: rest4 =>
      if isCont b2 && isCont b3 && isCont b4 then
        if decide (0x10000 ≤ (b1 - 0xf0) * 262144 + (b2 - 0x80) * 4096 +
              (b3 - 0x80) * 64 + (b4 - 0x80))
            && decide ((b1 - 0xf0) * 262144 + (b2 - 0x80) * 4096 +
              (b3 - 0x80) * 64 + (b4 - 0x80) < 0x110000)
        then some ((b1 - 0xf0) * 262144 + (b2 - 0x80) * 4096 +
          (b3 - 0x80) * 64 + (b4 - 0x80), rest4)
        else none
      else none
    | _ => none
  else none

/-- Decode loop: each step consumes at least the lead byte, so the input
length bounds the number of steps (`fuel`). -/
def utf8DecodeAux : Nat → List Nat → Option (List Nat)
  | _, [] => some []
  | 0, _ :: _ => none
  | fuel + 1, b1 :: rest =>
    match utf8DecodeChar b1 rest with
    | some (c, rem) => (utf8DecodeAux fuel rem).map (fun s => c :: s)
    | none => none

/-- Strict UTF-8 decoding (Python `bytes.decode("utf-8")`): `none` models
`UnicodeDecodeError`. -/
def utf8Decode (b : List Nat) : Option (List Nat) :=
  utf8DecodeAux b.length b

/-- A shipment as seen by the retry subsystem (id, provider slug, status). -/
structure Shipment where
  id : String
  provider : String
  status : String
  deriving DecidableEq, Repr

/-- Outcome of `repository.get_by_id`: the shipment, `ShipmentNotFoundError`,
or any other exception (carrying its message). -/
inductive RepoErr where
  | notFound
  | other (msg : String)
  deriving DecidableEq, Repr

/-- A shipment repository: `get_by_id` keyed by shipment id. -/
abbrev Repository := String → Except RepoErr Shipment

/-- Exceptions the callback-handling flow can raise:
`InvalidCallbackError` (permanent rejection), `CommunicationError`
(transient delivery failure), or any other exception. -/
inductive FlowErr where
  | invalid (msg : String)
  | comm (msg : String)
  | other (msg : String)
  deriving DecidableEq, Repr

/-- Python `str(exc)` for a flow exception. -/
def FlowErr.msg : FlowErr → String
  | .invalid m => m
  | .comm m => m
  | .other m => m

/-- `flow.handle_callback(shipment, data, headers, raw_body=...)`: the external
callback-handling operation; `Option (List Nat)` is the optional `raw_body`
keyword argument; returns the updated shipment or raises. -/
abbrev Handler := Shipment → Payload → Headers → Option (List Nat) → Except FlowErr Shipment

/-- One queued callback awaiting redelivery, as read by the processor
(`retry["id"]`, `retry["shipment_id"]`, `retry["payload"]`, `retry["headers"]`,
`retry["attempts"]`). -/
structure RetryRecord where
  id : String
  shipment_id : String
  payload : Payload
  headers : Headers
  attempts : Nat
  deriving DecidableEq, Repr

/-- Observable calls made to the retry store, the repository and the callback
handler during a pass or a producer invocation. -/
inductive Event where
  | getDueRetries (limit : Nat)
  | repoGetById (sid : String)
  | callbackInvoke (sid : String) (rawBody : Option (List Nat))
  | markSucceeded (rid : String)
  | markFailed (rid : String) (error : String)
  | markExhausted (rid : String)
  | storeFailedCallback (sid : String) (slug : String) (payload : Payload) (headers : Headers)
  deriving DecidableEq, Repr

/-- The `try: flow.handle_callback ... except Exception` block of
`process_due_retries` (retry.py lines 81-118): invoke the handler with the
reconstituted payload/headers and optional raw-body keyword; on success
`mark_succeeded`; on any exception `mark_failed` (and `mark_exhausted` when the
incremented attempt count reaches the maximum). -/
def processInvoke (handler : Handler) (max_attempts : Nat) (shipment : Shipment)
    (kwargs : Option (List Nat)) (r : RetryRecord) : List Event × Option String :=
  match handler shipment r.payload r.headers kwargs with
  | Except.ok _ =>
      ([Event.repoGetById r.shipment_id, Event.callbackInvoke r.shipment_id kwargs,
        Event.markSucceeded r.id], none)
  | Except.error exc =>
      if r.attempts + 1 ≥ max_attempts then
        ([Event.repoGetById r.shipment_id, Event.callbackInvoke r.shipment_id kwargs,
          Event.markFailed r.id exc.msg, Event.markExhausted r.id], none)
      else
        ([Event.repoGetById r.shipment_id, Event.callbackInvoke r.shipment_id kwargs,
          Event.markFailed r.id exc.msg], none)

/-- Can a Python string be encoded as UTF-8?  `str.encode("utf-8")` raises
`UnicodeEncodeError` exactly on lone surrogates (U+D800-U+DFFF), the only
code points a Python `str` can hold that UTF-8 excludes. -/
def pyEncodableUtf8 (s : List Nat) : Bool :=
  s.all (fun c => !(decide (0xd800 ≤ c) && decide (c < 0xe000)))

/-- `raw_body = retry["payload"].get("_raw_body")` and the conditional
`callback_kwargs` construction (retry.py lines 74-79): a present string value
is re-encoded as UTF-8 (raising `UnicodeEncodeError` if it contains a lone
surrogate); an absent (or null) value passes no raw-body argument; a present
non-string value makes `raw_body.encode("utf-8")` raise `AttributeError`. -/
def callbackKwargs (payload : Payload) : Except String (Option (List Nat)) :=
  match dictGet payload "_raw_body" with
  | some (JsonVal.str s) =>
      if pyEncodableUtf8 s then Except.ok (some (utf8Encode s))
      else Except.error "UnicodeEncodeError: surrogates not allowed"
  | none => Except.ok none
  | some _ => Except.error "AttributeError: object has no attribute encode"

/-- Processing of one due record by `process_due_retries` (retry.py lines
41-120): the events it emits, and `some msg` when an exception escapes the
record's processing (a repository error other than not-found, the
`AttributeError` from `raw_body.encode` on a non-string `_raw_body`, or the
`UnicodeEncodeError` on a lone-surrogate `_raw_body` string). -/
def processRetry (repo : Repository) (handler : Handler) (max_attempts : Nat)
    (r : RetryRecord) : List Event × Option String :=
  if r.attempts ≥ max_attempts then
    ([Event.markExhausted r.id], none)
  else
    match repo r.shipment_id with
    | Except.error RepoErr.notFound =>
        ([Event.repoGetById r.shipment_id, Event.markExhausted r.id], none)
    | Except.error (RepoErr.other m) =>
        ([Event.repoGetById r.shipment_id], some m)
    | Except.ok shipment =>
        match callbackKwargs r.payload with
        | Except.ok kw => processInvoke handler max_attempts shipment kw r
        | Except.error e => ([Event.repoGetById r.shipment_id], some e)

/-- A record whose processing cannot let an exception escape: its repository
lookup does not raise anything besides `ShipmentNotFoundError`, and its stored
`_raw_body` (if any) is a UTF-8-encodable string (no lone surrogates). -/
def recordSafeB (repo : Repository) (r : RetryRecord) : Bool :=
  (match repo r.shipment_id with
   | Except.error (RepoErr.other _) => false
   | _ => true)
  && (match callbackKwargs r.payload with
      | Except.ok _ => true
      | Except.error _ => false)

/-- The `for retry in retries` loop of `process_due_retries`: processes records
in order, incrementing `processed` per record; an escaping exception aborts the
loop and propagates. -/
def runPass (repo : Repository) (handler : Handler) (max_attempts : Nat) :
    List RetryRecord → Nat → List Event × Except String Nat
  | [], n => ([], Except.ok n)
  | r :: rest, n =>
    match processRetry repo handler max_attempts r with
    | (evs, none) =>
        let result := runPass repo handler max_attempts rest (n + 1)
        (evs ++ result.1, result.2)
    | (evs, some e) => (evs, Except.error e)

/-- `process_due_retries(retry_store, repository, config)`: fetches due records
with `limit=10`, processes each, returns the processed count (`Except.error`
models an exception propagating out of the pass).  `getDue` is the store's
`get_due_retries`; `max_attempts` is `config.retry_max_attempts`. -/
def process_due_retries (getDue : Nat → List RetryRecord) (repo : Repository)
    (handler : Handler) (max_attempts : Nat) : List Event × Except String Nat :=
  let retries := getDue 10
  let result := runPass repo handler max_attempts retries 0
  (Event.getDueRetries 10 :: result.1, result.2)

/-- `compute_next_retry_at(attempt, backoff_seconds)` (retry.py lines 16-25):
`delay = backoff_seconds * 2 ** (attempt - 1)`, added to the clock reading
`now` taken during the call (passed explicitly here). -/
def compute_next_retry_at (attempt : Nat) (backoff_seconds : Int) (now : Int) : Int :=
  now + backoff_seconds * 2 ^ (attempt - 1)

/-! ## Configuration (config.py) -/

/-- The fields declared by `SendparcelConfig` in config.py (lines 9-13):
`default_provider` and `providers` only. -/
def sendparcelConfigFields : List String :=
  ["default_provider", "providers"]

/-- Pydantic attribute access on `SendparcelConfig`: an attribute that is not a
declared field raises `AttributeError` (the settings class ignores unknown
constructor keywords and defines no other attributes). -/
def configHasAttr (name : String) : Bool :=
  sendparcelConfigFields.contains name

/-! ## The producer route (routes/callbacks.py) -/

/-- The inbound HTTP request as the route sees it: raw body bytes, the result
of `request.json()` (`none` models `JSONDecodeError`, in which case the route
uses `{}`), and the request headers. -/
structure CallbackRequest where
  body : List Nat
  json : Option Payload
  headers : Headers
  deriving DecidableEq, Repr

/-- Exceptions that can propagate out of `provider_callback`. -/
inductive RouteErr where
  | invalid (msg : String)
  | comm (msg : String)
  | notFound
  | repoOther (msg : String)
  | flowOther (msg : String)
  | unicodeDecodeError
  deriving DecidableEq, Repr

/-- The 200 response body (`CallbackResponse`). -/
structure CallbackResponse where
  provider : String
  status : String
  shipment_status : String
  deriving DecidableEq, Repr

/-- `provider_callback` (routes/callbacks.py lines 27-79): resolve the
shipment, check the provider slug, invoke the flow with the parsed payload and
the raw body; on `InvalidCallbackError` re-raise without enqueueing; on
`CommunicationError`, if a retry store is present, store the callback with the
raw body decoded as UTF-8 under `"_raw_body"`, then re-raise.  `store_present`
models `retry_store is not None`. -/
def provider_callback (repo : Repository) (handler : Handler)
    (store_present : Bool) (provider_slug : String) (shipment_id : String)
    (req : CallbackRequest) : List Event × Except RouteErr CallbackResponse :=
  match repo shipment_id with
  | Except.error RepoErr.notFound =>
      ([Event.repoGetById shipment_id], Except.error RouteErr.notFound)
  | Except.error (RepoErr.other m) =>
      ([Event.repoGetById shipment_id], Except.error (RouteErr.repoOther m))
  | Except.ok shipment =>
      if shipment.provider ≠ provider_slug then
        ([Event.repoGetById shipment_id],
          Except.error (RouteErr.invalid "Provider slug mismatch"))
      else
        let payload := req.json.getD []
        match handler shipment payload req.headers (some req.body) with
        | Except.ok updated =>
            ([Event.repoGetById shipment_id,
              Event.callbackInvoke shipment_id (some req.body)],
              Except.ok ⟨provider_slug, "accepted", updated.status⟩)
        | Except.error (FlowErr.invalid m) =>
            ([Event.repoGetById shipment_id,
              Event.callbackInvoke shipment_id (some req.body)],
              Except.error (RouteErr.invalid m))
        | Except.error (FlowErr.other m) =>
            ([Event.repoGetById shipment_id,
              Event.callbackInvoke shipment_id (some req.body)],
              Except.error (RouteErr.flowOther m))
        | Except.error (FlowErr.comm m) =>
            if store_present then
              match utf8Decode req.body with
              | none =>
                  ([Event.repoGetById shipment_id,
                    Event.callbackInvoke shipment_id (some req.body)],
                    Except.error RouteErr.unicodeDecodeError)
              | some s =>
                  ([Event.repoGetById shipment_id,
                    Event.callbackInvoke shipment_id (some req.body),
                    Event.storeFailedCallback shipment_id provider_slug
                      (dictSet payload "_raw_body" (JsonVal.str s)) req.headers],
                    Except.error (RouteErr.comm m))
            else
              ([Event.repoGetById shipment_id,
                Event.callbackInvoke shipment_id (some req.body)],
                Except.error (RouteErr.comm m))

/-! ## Retry-store record state -/

/-- Record lifecycle status. -/
inductive RecStatus where
  | pending
  | succeeded
  | exhausted
  deriving DecidableEq, Repr

/-- The mutable store-side state of one retry record. -/
structure RecState where
  attempts : Nat
  status : RecStatus
  last_error : Option String
  next_retry_at : Option Int
  deriving DecidableEq, Repr

/-- Modelled from the spec: the `CallbackRetryStore` `mark_*` semantics
(spec section 4.2) — the repository declares only the `CallbackRetryStore`
Protocol (protocols.py) and ships no store implementation of these methods
under src/ (the contrib SQLAlchemy store exposes only `enqueue`).
`mark_succeeded` sets status succeeded and clears `last_error`; `mark_failed`
increments `attempts`, records the error, recomputes `next_retry_at` via the
backoff calculator with the new attempts value, keeps status pending;
`mark_exhausted` sets status exhausted.  Events for other record ids and
non-store events leave the state unchanged. -/
def applyEvent (backoff_seconds : Int) (now : Int) (rid : String)
    (st : RecState) : Event → RecState
  | Event.markSucceeded r =>
      if r = rid then { st with status := RecStatus.succeeded, last_error := none }
      else st
  | Event.markFailed r e =>
      if r = rid then
        { attempts := st.attempts + 1
          status := RecStatus.pending
          last_error := some e
          next_retry_at :=
            some (compute_next_retry_at (st.attempts + 1) backoff_seconds now) }
      else st
  | Event.markExhausted r =>
      if r = rid then { st with status := RecStatus.exhausted } else st
  | _ => st

/-- Apply a trace of events to a record's store state, in order. -/
def applyEvents (backoff_seconds : Int) (now : Int) (rid : String)
    (st : RecState) (evs : List Event) : RecState :=
  evs.foldl (applyEvent backoff_seconds now rid) st

/-- A repository whose lookup of shipment "s1" raises an exception that is not
`ShipmentNotFoundError`. -/
def failingRepo : Repository := fun sid =>
  if sid = "s1" then Except.error (RepoErr.other "database connection lost")
  else Except.ok ⟨"s2", "dummy", "label_ready"⟩

/-- A callback handler that always succeeds. -/
def okHandler : Handler := fun s _ _ _ => Except.ok s

/-- A two-record batch whose first record targets shipment "s1". -/
def twoRecordBatch : List RetryRecord :=
  [⟨"r1", "s1", [], [], 0⟩, ⟨"r2", "s2", [], [], 0⟩]

/-! ## Theorems -/

/-- C3: for every `attempt ≥ 1` and base `backoff_seconds`, the backoff
calculator returns exactly `now + backoff_seconds * 2 ^ (attempt - 1)` for the
clock reading `now` taken during the call, and the result is bracketed between
the same expression at any `before ≤ now` and `after ≥ now` clock readings. -/
theorem compute_next_retry_at_spec (attempt : Nat) (backoff_seconds : Int)
    (before now aft : Int) (h1 : 1 ≤ attempt) (hb : before ≤ now)
    (ha : now ≤ aft) :
    compute_next_retry_at attempt backoff_seconds now
        = now + backoff_seconds * 2 ^ (attempt - 1)
    ∧ before + backoff_seconds * 2 ^ (attempt - 1)
        ≤ compute_next_retry_at attempt backoff_seconds now
    ∧ compute_next_retry_at attempt backoff_seconds now
        ≤ aft + backoff_seconds * 2 ^ (attempt - 1) := by
  unfold compute_next_retry_at
  exact ⟨rfl, add_le_add_right hb _, add_le_add_right ha _⟩

/-- Witness for C3 at `attempt = 2`, `backoff_seconds = 60`,
`before = 990 ≤ now = 1000 ≤ after = 1010`: the result is `now + 120`. -/
theorem compute_next_retry_at_spec_witness :
    compute_next_retry_at 2 60 1000 = 1000 + 60 * 2 ^ (2 - 1)
    ∧ 990 + 60 * 2 ^ (2 - 1) ≤ compute_next_retry_at 2 60 1000
    ∧ compute_next_retry_at 2 60 1000 ≤ 1010 + 60 * 2 ^ (2 - 1) :=
  compute_next_retry_at_spec 2 60 990 1000 1010 (by norm_num) (by norm_num)
    (by norm_num)

/-- C2: a fetched record with `attempts ≥ max_attempts` is marked exhausted
and nothing else happens to it: no repository lookup, no callback invocation,
no `mark_failed` — the event list is exactly `[markExhausted]` and no
exception escapes. -/
theorem exhausted_never_dispatched (repo : Repository) (handler : Handler)
    (max_attempts : Nat) (r : RetryRecord) (h : max_attempts ≤ r.attempts) :
    processRetry repo handler max_attempts r
      = ([Event.markExhausted r.id], none) := by
  unfold processRetry
  rw [if_pos h]

/-- Witness for C2: a record with `attempts = 5` under `max_attempts = 5` is
only marked exhausted. -/
theorem exhausted_never_dispatched_witness :
    processRetry (fun _ => Except.error RepoErr.notFound)
      (fun s _ _ _ => Except.ok s) 5 ⟨"r1", "s1", [], [], 5⟩
      = ([Event.markExhausted "r1"], none) :=
  exhausted_never_dispatched _ _ _ _ (by norm_num)

/-- C1: processing a due record whose callback re-invocation raises calls
`mark_failed` with `str(exc)`; when `attempts + 1 ≥ max_attempts` it then calls
`mark_exhausted` (after `mark_failed`, in that order); otherwise it does not
call `mark_exhausted`, and applying the emitted store mutations leaves the
record pending with `attempts + 1`, the error recorded, and `next_retry_at`
recomputed by the backoff calculator at the new attempt count. -/
theorem failed_retry_marks_failed (repo : Repository) (handler : Handler)
    (max_attempts : Nat) (r : RetryRecord) (shipment : Shipment)
    (exc : FlowErr) (kw : Option (List Nat)) (backoff now : Int)
    (le0 : Option String) (nr0 : Option Int)
    (hatt : r.attempts < max_attempts)
    (hrepo : repo r.shipment_id = Except.ok shipment)
    (hkw : callbackKwargs r.payload = Except.ok kw)
    (hh : handler shipment r.payload r.headers kw = Except.error exc) :
    processRetry repo handler max_attempts r
      = ([Event.repoGetById r.shipment_id, Event.callbackInvoke r.shipment_id kw,
          Event.markFailed r.id exc.msg]
          ++ (if max_attempts ≤ r.attempts + 1 then [Event.markExhausted r.id]
              else []),
         none)
    ∧ (r.attempts + 1 < max_attempts →
        applyEvents backoff now r.id
            ⟨r.attempts, RecStatus.pending, le0, nr0⟩
            (processRetry repo handler max_attempts r).1
          = ⟨r.attempts + 1, RecStatus.pending, some exc.msg,
             some (compute_next_retry_at (r.attempts + 1) backoff now)⟩) := by
  have hmain : processRetry repo handler max_attempts r
      = ([Event.repoGetById r.shipment_id, Event.callbackInvoke r.shipment_id kw,
          Event.markFailed r.id exc.msg]
          ++ (if max_attempts ≤ r.attempts + 1 then [Event.markExhausted r.id]
              else []),
         none) := by
    simp only [processRetry, processInvoke, hrepo, hkw, hh, ge_iff_le,
      if_neg (show ¬ max_attempts ≤ r.attempts by omega)]
    by_cases hx : max_attempts ≤ r.attempts + 1
    · simp [hx]
    · simp [hx]
  refine ⟨hmain, fun hlt => ?_⟩
  rw [hmain]
  simp only [if_neg (by omega : ¬ max_attempts ≤ r.attempts + 1),
    List.append_nil]
  simp [applyEvents, applyEvent]

/-- Witness for C1: `attempts = 1`, `max_attempts = 5`,
`backoff_seconds = 60`, `now = 0`, a handler raising
`CommunicationError("boom")`: `mark_failed` is called with "boom", no
`mark_exhausted`, and the applied store state is pending with `attempts = 2`
and `next_retry_at = 120`. -/
theorem failed_retry_marks_failed_witness :
    processRetry (fun _ => Except.ok ⟨"s1", "dummy", "label_ready"⟩)
        (fun _ _ _ _ => Except.error (FlowErr.comm "boom")) 5
        ⟨"r1", "s1", [], [], 1⟩
      = ([Event.repoGetById "s1", Event.callbackInvoke "s1" none,
          Event.markFailed "r1" (FlowErr.comm "boom").msg]
          ++ (if 5 ≤ 1 + 1 then [Event.markExhausted "r1"] else []),
         none)
    ∧ (1 + 1 < 5 →
        applyEvents 60 0 "r1" ⟨1, RecStatus.pending, none, none⟩
            (processRetry (fun _ => Except.ok ⟨"s1", "dummy", "label_ready"⟩)
              (fun _ _ _ _ => Except.error (FlowErr.comm "boom")) 5
              ⟨"r1", "s1", [], [], 1⟩).1
          = ⟨1 + 1, RecStatus.pending, some (FlowErr.comm "boom").msg,
             some (compute_next_retry_at (1 + 1) 60 0)⟩) :=
  failed_retry_marks_failed _ _ 5 ⟨"r1", "s1", [], [], 1⟩ _ _ none 60 0 none none
    (by norm_num) rfl rfl rfl

/-- C5: a due record (not yet exhausted) whose shipment lookup raises
not-found gets exactly one `mark_exhausted`, no `mark_failed`, no callback
invocation, and is still counted: a pass over just this record returns 1. -/
theorem shipment_not_found_exhausts (repo : Repository) (handler : Handler)
    (max_attempts : Nat) (r : RetryRecord)
    (hatt : r.attempts < max_attempts)
    (hrepo : repo r.shipment_id = Except.error RepoErr.notFound) :
    processRetry repo handler max_attempts r
      = ([Event.repoGetById r.shipment_id, Event.markExhausted r.id], none)
    ∧ process_due_retries (fun _ => [r]) repo handler max_attempts
      = ([Event.getDueRetries 10, Event.repoGetById r.shipment_id,
          Event.markExhausted r.id], Except.ok 1) := by
  have hone : processRetry repo handler max_attempts r
      = ([Event.repoGetById r.shipment_id, Event.markExhausted r.id], none) := by
    simp only [processRetry, hrepo, ge_iff_le,
      if_neg (show ¬ max_attempts ≤ r.attempts by omega)]
  refine ⟨hone, ?_⟩
  simp [process_due_retries, runPass, hone]

/-- Witness for C5: a record pointing at shipment "missing" with
`attempts = 0 < max_attempts = 5` under a repository that raises not-found. -/
theorem shipment_not_found_exhausts_witness :
    processRetry (fun _ => Except.error RepoErr.notFound)
        (fun s _ _ _ => Except.ok s) 5 ⟨"r1", "missing", [], [], 0⟩
      = ([Event.repoGetById "missing", Event.markExhausted "r1"], none)
    ∧ process_due_retries (fun _ => [⟨"r1", "missing", [], [], 0⟩])
        (fun _ => Except.error RepoErr.notFound) (fun s _ _ _ => Except.ok s) 5
      = ([Event.getDueRetries 10, Event.repoGetById "missing",
          Event.markExhausted "r1"], Except.ok 1) :=
  shipment_not_found_exhausts _ _ 5 ⟨"r1", "missing", [], [], 0⟩ (by norm_num)
    rfl

/-- `runPass` never emits a `getDueRetries` event: the store fetch happens
once, before the loop. -/
theorem runPass_no_getDue (repo : Repository) (handler : Handler)
    (max_attempts : Nat) :
    ∀ (l : List RetryRecord) (n k : Nat),
      Event.getDueRetries k ∉ (runPass repo handler max_attempts l n).1 := by
  have hone : ∀ (r : RetryRecord) (k : Nat),
      Event.getDueRetries k ∉ (processRetry repo handler max_attempts r).1 := by
    intro r k
    unfold processRetry processInvoke
    split
    · simp
    · split
      · simp
      · simp
      · split
        · split
          · simp
          · split <;> simp
        · simp
  intro l
  induction l with
  | nil => intro n k; simp [runPass]
  | cons r rest ih =>
    intro n k
    unfold runPass
    cases hpr : processRetry repo handler max_attempts r with
    | mk evs esc =>
      cases esc with
      | none =>
        simp only [List.mem_append, not_or]
        refine ⟨?_, ih (n + 1) k⟩
        have := hone r k
        rw [hpr] at this
        exact this
      | some e =>
        have := hone r k
        rw [hpr] at this
        simpa using this

/-- If the loop finishes without an escaping exception, the returned count is
the starting count plus the number of records in the batch. -/
theorem runPass_count (repo : Repository) (handler : Handler)
    (max_attempts : Nat) :
    ∀ (l : List RetryRecord) (n m : Nat),
      (runPass repo handler max_attempts l n).2 = Except.ok m →
      m = n + l.length := by
  intro l
  induction l with
  | nil =>
    intro n m h
    simp [runPass] at h
    simp only [List.length_nil]
    omega
  | cons r rest ih =>
    intro n m h
    unfold runPass at h
    cases hpr : processRetry repo handler max_attempts r with
    | mk evs esc =>
      rw [hpr] at h
      cases esc with
      | none =>
        have := ih (n + 1) m h
        simp only [List.length_cons]
        omega
      | some e => simp at h

/-- C6: every pass performs exactly one store fetch, with the fixed batch
limit 10; when the loop completes, the returned count is the number of fetched
records (successes plus failures plus exhaustions); and with zero due records
the pass returns 0 having emitted no repository or store-mutation event at
all. -/
theorem pass_limit_and_count (getDue : Nat → List RetryRecord)
    (repo : Repository) (handler : Handler) (max_attempts : Nat) :
    (process_due_retries getDue repo handler max_attempts).1.head?
        = some (Event.getDueRetries 10)
    ∧ (∀ k, Event.getDueRetries k
        ∉ (process_due_retries getDue repo handler max_attempts).1.tail)
    ∧ (∀ n, (process_due_retries getDue repo handler max_attempts).2
          = Except.ok n → n = (getDue 10).length)
    ∧ (getDue 10 = [] →
        process_due_retries getDue repo handler max_attempts
          = ([Event.getDueRetries 10], Except.ok 0)) := by
  refine ⟨rfl, ?_, ?_, ?_⟩
  · intro k
    simp only [process_due_retries, List.tail_cons]
    exact runPass_no_getDue repo handler max_attempts (getDue 10) 0 k
  · intro n h
    have := runPass_count repo handler max_attempts (getDue 10) 0 n h
    omega
  · intro hempty
    simp [process_due_retries, hempty, runPass]

/-- Witness for C6 with an empty store: the pass returns 0 and emits only the
fetch event. -/
theorem pass_limit_and_count_witness :
    (process_due_retries (fun _ => []) (fun _ => Except.error RepoErr.notFound)
        (fun s _ _ _ => Except.ok s) 5).1.head?
        = some (Event.getDueRetries 10)
    ∧ (∀ k, Event.getDueRetries k
        ∉ (process_due_retries (fun _ => [])
            (fun _ => Except.error RepoErr.notFound)
            (fun s _ _ _ => Except.ok s) 5).1.tail)
    ∧ (∀ n, (process_due_retries (fun _ => [])
          (fun _ => Except.error RepoErr.notFound)
          (fun s _ _ _ => Except.ok s) 5).2 = Except.ok n →
        n = (([] : List RetryRecord)).length)
    ∧ (([] : List RetryRecord) = [] →
        process_due_retries (fun _ => []) (fun _ => Except.error RepoErr.notFound)
            (fun s _ _ _ => Except.ok s) 5
          = ([Event.getDueRetries 10], Except.ok 0)) :=
  pass_limit_and_count (fun _ => []) (fun _ => Except.error RepoErr.notFound)
    (fun s _ _ _ => Except.ok s) 5

/-- Processing a record whose repository lookup raises nothing beyond
not-found and whose stored `_raw_body` is a string (or absent) lets no
exception escape: every outcome is converted into store mutations. -/
theorem processRetry_safe_no_escape (repo : Repository) (handler : Handler)
    (max_attempts : Nat) (r : RetryRecord) (h : recordSafeB repo r = true) :
    (processRetry repo handler max_attempts r).2 = none := by
  unfold processRetry
  split
  · rfl
  · cases hrepo : repo r.shipment_id with
    | error e =>
      cases e with
      | notFound => simp
      | other m =>
        exfalso
        simp [recordSafeB, hrepo] at h
    | ok shipment =>
      cases hkw : callbackKwargs r.payload with
      | error e =>
        exfalso
        simp [recordSafeB, hrepo, hkw] at h
      | ok kw =>
        simp only [hkw]
        unfold processInvoke
        split
        · rfl
        · split <;> rfl

/-- A batch of safe records runs to completion: the loop visits every record,
emits each record's own store mutations, and counts each record once. -/
theorem runPass_safe (repo : Repository) (handler : Handler)
    (max_attempts : Nat) :
    ∀ (l : List RetryRecord) (n : Nat),
      (∀ r ∈ l, recordSafeB repo r = true) →
      runPass repo handler max_attempts l n
        = ((l.map (fun r => (processRetry repo handler max_attempts r).1)).flatten,
           Except.ok (n + l.length)) := by
  intro l
  induction l with
  | nil => intro n _; simp [runPass]
  | cons r rest ih =>
    intro n hsafe
    have hesc : (processRetry repo handler max_attempts r).2 = none :=
      processRetry_safe_no_escape repo handler max_attempts r
        (hsafe r (by simp))
    unfold runPass
    cases hpr : processRetry repo handler max_attempts r with
    | mk evs esc =>
      rw [hpr] at hesc
      subst hesc
      rw [ih (n + 1) (fun x hx => hsafe x (by simp [hx]))]
      simp [hpr]
      omega

/-- C8 (amended): when every fetched record is safe — its repository lookup
raises nothing beyond not-found and its stored `_raw_body` is a string or
absent — no exception escapes any record's processing: the pass completes,
every record contributes exactly its own store mutations, and the returned
count is the batch size.  (Repository failures other than not-found, and
malformed stored `_raw_body` values, propagate; see the counterexample.) -/
theorem safe_batch_completes (getDue : Nat → List RetryRecord)
    (repo : Repository) (handler : Handler) (max_attempts : Nat)
    (hsafe : ∀ r ∈ getDue 10, recordSafeB repo r = true) :
    process_due_retries getDue repo handler max_attempts
      = (Event.getDueRetries 10
          :: ((getDue 10).map
              (fun r => (processRetry repo handler max_attempts r).1)).flatten,
         Except.ok ((getDue 10).length)) := by
  simp only [process_due_retries,
    runPass_safe repo handler max_attempts (getDue 10) 0 hsafe, Nat.zero_add]

/-- Witness for the amended C8: a two-record batch in which the first record's
handler raises and the second succeeds still completes with count 2, each
record contributing its own mutations. -/
theorem safe_batch_completes_witness :
    process_due_retries
        (fun _ => [⟨"r1", "s1", [], [], 0⟩, ⟨"r2", "s2", [], [], 0⟩])
        (fun sid => Except.ok ⟨sid, "dummy", "label_ready"⟩)
        (fun s _ _ _ =>
          if s.id = "s1" then Except.error (FlowErr.comm "down") else Except.ok s)
        5
      = (Event.getDueRetries 10
          :: (([⟨"r1", "s1", [], [], 0⟩, ⟨"r2", "s2", [], [], 0⟩] :
                List RetryRecord).map
              (fun r => (processRetry
                  (fun sid => Except.ok ⟨sid, "dummy", "label_ready"⟩)
                  (fun s _ _ _ =>
                    if s.id = "s1" then Except.error (FlowErr.comm "down")
                    else Except.ok s) 5 r).1)).flatten,
         Except.ok (([⟨"r1", "s1", [], [], 0⟩, ⟨"r2", "s2", [], [], 0⟩] :
            List RetryRecord).length)) :=
  safe_batch_completes _ _ _ 5 (by decide)

/-- C8 counterexample: a repository exception other than not-found — which is
not an unavailability of the Retry Store — propagates out of the pass and
aborts the processing of the remaining records: record "r2" is never touched
(no event for it), no store mutation is recorded for "r1", and no count is
returned. -/
theorem pass_aborts_on_repo_exception :
    process_due_retries (fun _ => twoRecordBatch) failingRepo okHandler 5
      = ([Event.getDueRetries 10, Event.repoGetById "s1"],
         Except.error "database connection lost") := rfl

/-- C7 counterexample: a transient failure on a reachable non-UTF-8 body.
For body bytes `b"\xff\xfeZZ"` the framework parses the body as UTF-16 JSON,
fails (`payload = {}`), the handler raises `CommunicationError` — yet with a
store configured nothing is enqueued: `raw_body.decode("utf-8")` at
callbacks.py line 61 raises `UnicodeDecodeError` before
`store_failed_callback`, and the surfaced error is not the transient one. -/
theorem producer_skips_enqueue_on_decode_error :
    provider_callback (fun _ => Except.ok ⟨"s1", "dummy", "label_ready"⟩)
        (fun _ _ _ _ => Except.error (FlowErr.comm "provider down")) true
        "dummy" "s1" ⟨[0xff, 0xfe, 0x5a, 0x5a], none, []⟩
      = ([Event.repoGetById "s1",
          Event.callbackInvoke "s1" (some [0xff, 0xfe, 0x5a, 0x5a])],
         Except.error RouteErr.unicodeDecodeError) := rfl

/-- C7 (amended): with a retry store configured, a transient
`CommunicationError` from the callback handler on a request whose raw body is
valid UTF-8 makes the route store the callback exactly once — via
`store_failed_callback(shipment_id, provider_slug, payload, headers)` with
the decoded body under `"_raw_body"` — and then re-raise the same error; on a
raw body that is not valid UTF-8 the decode at the enqueue site raises
`UnicodeDecodeError` instead and nothing is stored; a permanent
`InvalidCallbackError` is re-raised immediately with no store call at all.
All parts hold for every message string: the kinds are told apart by
exception class alone. -/
theorem producer_retry_routing (repo : Repository)
    (handlerT handlerP : Handler) (slug sid mT mP : String)
    (req reqBad : CallbackRequest) (shipment : Shipment) (s : List Nat)
    (hrepo : repo sid = Except.ok shipment)
    (hslug : shipment.provider = slug)
    (hdec : utf8Decode req.body = some s)
    (hT : handlerT shipment (req.json.getD []) req.headers (some req.body)
        = Except.error (FlowErr.comm mT))
    (hP : handlerP shipment (req.json.getD []) req.headers (some req.body)
        = Except.error (FlowErr.invalid mP))
    (hbad : utf8Decode reqBad.body = none)
    (hTbad : handlerT shipment (reqBad.json.getD []) reqBad.headers
        (some reqBad.body) = Except.error (FlowErr.comm mT)) :
    provider_callback repo handlerT true slug sid req
      = ([Event.repoGetById sid, Event.callbackInvoke sid (some req.body),
          Event.storeFailedCallback sid slug
            (dictSet (req.json.getD []) "_raw_body" (JsonVal.str s))
            req.headers],
         Except.error (RouteErr.comm mT))
    ∧ provider_callback repo handlerP true slug sid req
      = ([Event.repoGetById sid, Event.callbackInvoke sid (some req.body)],
         Except.error (RouteErr.invalid mP))
    ∧ provider_callback repo handlerT true slug sid reqBad
      = ([Event.repoGetById sid, Event.callbackInvoke sid (some reqBad.body)],
         Except.error RouteErr.unicodeDecodeError) := by
  refine ⟨?_, ?_, ?_⟩
  · simp [provider_callback, hrepo, hslug, hT, hdec]
  · simp [provider_callback, hrepo, hslug, hP]
  · simp [provider_callback, hrepo, hslug, hTbad, hbad]

/-- Witness for the amended C7, exercising all three branches concretely: a
transient-raising handler with UTF-8 body "hi" enqueues once then re-raises;
an invalid-raising handler enqueues nothing; the same transient handler with
body `b"\xff\xfeZZ"` raises the decode error with nothing stored. -/
theorem producer_retry_routing_witness :
    provider_callback (fun _ => Except.ok ⟨"s1", "dummy", "label_ready"⟩)
        (fun _ _ _ _ => Except.error (FlowErr.comm "provider down")) true
        "dummy" "s1" ⟨[104, 105], none, []⟩
      = ([Event.repoGetById "s1", Event.callbackInvoke "s1" (some [104, 105]),
          Event.storeFailedCallback "s1" "dummy"
            [("_raw_body", JsonVal.str [104, 105])] []],
         Except.error (RouteErr.comm "provider down"))
    ∧ provider_callback (fun _ => Except.ok ⟨"s1", "dummy", "label_ready"⟩)
        (fun _ _ _ _ => Except.error (FlowErr.invalid "bad token")) true
        "dummy" "s1" ⟨[104, 105], none, []⟩
      = ([Event.repoGetById "s1", Event.callbackInvoke "s1" (some [104, 105])],
         Except.error (RouteErr.invalid "bad token"))
    ∧ provider_callback (fun _ => Except.ok ⟨"s1", "dummy", "label_ready"⟩)
        (fun _ _ _ _ => Except.error (FlowErr.comm "provider down")) true
        "dummy" "s1" ⟨[0xbb, 0xaa], none, []⟩
      = ([Event.repoGetById "s1", Event.callbackInvoke "s1" (some [0xbb, 0xaa])],
         Except.error RouteErr.unicodeDecodeError) :=
  producer_retry_routing (fun _ => Except.ok ⟨"s1", "dummy", "label_ready"⟩)
    (fun _ _ _ _ => Except.error (FlowErr.comm "provider down"))
    (fun _ _ _ _ => Except.error (FlowErr.invalid "bad token"))
    "dummy" "s1" "provider down" "bad token"
    ⟨[104, 105], none, []⟩ ⟨[0xbb, 0xaa], none, []⟩
    ⟨"s1", "dummy", "label_ready"⟩ [104, 105]
    rfl rfl (by decide) rfl rfl (by decide) rfl

/-- C10: with no retry store in application state (`get_retry_store` resolves
to `None`), a transient `CommunicationError` is re-raised to the caller with
no store operation of any kind — the producer path does not fail for lack of
a store. -/
theorem no_store_reraises (repo : Repository) (handler : Handler)
    (slug sid m : String) (req : CallbackRequest) (shipment : Shipment)
    (hrepo : repo sid = Except.ok shipment)
    (hslug : shipment.provider = slug)
    (hh : handler shipment (req.json.getD []) req.headers (some req.body)
        = Except.error (FlowErr.comm m)) :
    provider_callback repo handler false slug sid req
      = ([Event.repoGetById sid, Event.callbackInvoke sid (some req.body)],
         Except.error (RouteErr.comm m)) := by
  simp [provider_callback, hrepo, hslug, hh]

/-- Witness for C10: same transient failure as the C7 witness but with
`retry_store = None`: no store event, the error re-raised. -/
theorem no_store_reraises_witness :
    provider_callback (fun _ => Except.ok ⟨"s1", "dummy", "label_ready"⟩)
        (fun _ _ _ _ => Except.error (FlowErr.comm "provider down")) false
        "dummy" "s1" ⟨[0xff], none, []⟩
      = ([Event.repoGetById "s1", Event.callbackInvoke "s1" (some [0xff])],
         Except.error (RouteErr.comm "provider down")) :=
  no_store_reraises (fun _ => Except.ok ⟨"s1", "dummy", "label_ready"⟩)
    (fun _ _ _ _ => Except.error (FlowErr.comm "provider down"))
    "dummy" "s1" "provider down" ⟨[0xff], none, []⟩
    ⟨"s1", "dummy", "label_ready"⟩ rfl rfl rfl

/-- C4 (code bug): `SendparcelConfig` (config.py lines 9-13) declares only
`default_provider` and `providers` — none of `retry_max_attempts`,
`retry_backoff_seconds`, `retry_enabled` exist as attributes, although
tests/test_config.py asserts their defaults (5, 60, true) and retry.py reads
`config.retry_max_attempts`; and the producer route enqueues on a transient
error whenever a store is present, consulting no retry-enabled gate at all
(the concrete run below stores the callback although no such flag exists to
be true). -/
theorem config_lacks_retry_fields :
    configHasAttr "retry_max_attempts" = false
    ∧ configHasAttr "retry_backoff_seconds" = false
    ∧ configHasAttr "retry_enabled" = false
    ∧ configHasAttr "default_provider" = true
    ∧ configHasAttr "providers" = true
    ∧ provider_callback (fun _ => Except.ok ⟨"s1", "dummy", "label_ready"⟩)
        (fun _ _ _ _ => Except.error (FlowErr.comm "down")) true "dummy" "s1"
        ⟨[], none, []⟩
      = ([Event.repoGetById "s1", Event.callbackInvoke "s1" (some []),
          Event.storeFailedCallback "s1" "dummy"
            [("_raw_body", JsonVal.str [])] []],
         Except.error (RouteErr.comm "down")) := by
  refine ⟨rfl, rfl, rfl, rfl, rfl, rfl⟩

/-- Looking up the key just set by `dictSet` returns the new value. -/
theorem dictGet_dictSet (d : Payload) (k : String) (s : List Nat) :
    dictGet (dictSet d k (JsonVal.str s)) k = some (JsonVal.str s) := by
  unfold dictGet dictSet
  have hlk : ∀ (l : Payload), (∀ p ∈ l, p.1 ≠ k) →
      (l ++ [(k, JsonVal.str s)]).lookup k = some (JsonVal.str s) := by
    intro l
    induction l with
    | nil => intro _; simp [List.lookup]
    | cons p rest ih =>
      intro hl
      have hp : p.1 ≠ k := hl p (by simp)
      have : (k == p.1) = false := by
        simp [beq_iff_eq]
        exact fun hkp => hp hkp.symm
      simp only [List.cons_append, List.lookup, this]
      exact ih (fun q hq => hl q (by simp [hq]))
  rw [hlk (d.filter (fun p => p.1 ≠ k)) (fun p hp => by
    have := List.of_mem_filter hp
    simpa using this)]

/-- Re-encoding one successfully decoded code point reproduces the consumed
bytes: `utf8EncodeChar c ++ rem` is the original input. -/
theorem utf8DecodeChar_spec (b1 c : Nat) (rest rem : List Nat)
    (h : utf8DecodeChar b1 rest = some (c, rem)) :
    utf8EncodeChar c ++ rem = b1 :: rest := by
  unfold utf8DecodeChar at h
  split at h
  next h1 =>
    simp only [Option.some.injEq, Prod.mk.injEq] at h
    obtain ⟨rfl, rfl⟩ := h
    rw [utf8EncodeChar, if_pos h1]
    rfl
  next h1 =>
    split at h
    next => exact Option.noConfusion h
    next h2 =>
      split at h
      next h3 =>
        split at h
        next b2 rest2 =>
          split at h
          next hcont =>
            simp only [Option.some.injEq, Prod.mk.injEq] at h
            obtain ⟨rfl, rfl⟩ := h
            have hb2 : 128 ≤ b2 ∧ b2 < 192 := by
              simpa [isCont, Bool.and_eq_true, decide_eq_true_eq] using hcont
            rw [utf8EncodeChar, if_neg (by omega), if_pos (by omega)]
            simp only [List.cons_append, List.nil_append, List.cons.injEq]
            exact ⟨by omega, by omega, trivial⟩
          next => exact Option.noConfusion h
        next => exact Option.noConfusion h
      next h3 =>
        split at h
        next h4 =>
          split at h
          next b2 b3 rest3 =>
            split at h
            next hcont =>
              split at h
              next hc =>
                simp only [Option.some.injEq, Prod.mk.injEq] at h
                obtain ⟨rfl, rfl⟩ := h
                have hb23 := hcont
                simp only [isCont, Bool.and_eq_true, decide_eq_true_eq]
                  at hb23
                have hc2 : 2048 ≤ (b1 - 224) * 4096 + (b2 - 128) * 64 +
                    (b3 - 128) := by
                  simp only [Bool.and_eq_true, decide_eq_true_eq] at hc
                  exact hc.1
                rw [utf8EncodeChar, if_neg (by omega), if_neg (by omega),
                  if_pos (by omega)]
                simp only [List.cons_append, List.nil_append, List.cons.injEq]
                exact ⟨by omega, by omega, by omega, trivial⟩
              next => exact Option.noConfusion h
            next => exact Option.noConfusion h
          next => exact Option.noConfusion h
        next h4 =>
          split at h
          next h5 =>
            split at h
            next b2 b3 b4 rest4 =>
              split at h
              next hcont =>
                split at h
                next hc =>
                  simp only [Option.some.injEq, Prod.mk.injEq] at h
                  obtain ⟨rfl, rfl⟩ := h
                  have hb234 := hcont
                  simp only [isCont, Bool.and_eq_true, decide_eq_true_eq]
                    at hb234
                  have hc2 : 65536 ≤ (b1 - 240) * 262144 + (b2 - 128) * 4096 +
                      (b3 - 128) * 64 + (b4 - 128) := by
                    simp only [Bool.and_eq_true, decide_eq_true_eq] at hc
                    exact hc.1
                  rw [utf8EncodeChar, if_neg (by omega), if_neg (by omega),
                    if_neg (by omega)]
                  simp only [List.cons_append, List.nil_append,
                    List.cons.injEq]
                  exact ⟨by omega, by omega, by omega, by omega, trivial⟩
                next => exact Option.noConfusion h
              next => exact Option.noConfusion h
            next => exact Option.noConfusion h
          next => exact Option.noConfusion h

/-- Re-encoding a byte string decoded by the fuelled loop reproduces it. -/
theorem utf8DecodeAux_encode :
    ∀ (fuel : Nat) (b s : List Nat),
      utf8DecodeAux fuel b = some s → utf8Encode s = b := by
  intro fuel
  induction fuel with
  | zero =>
    intro b s h
    cases b with
    | nil =>
      simp only [utf8DecodeAux, Option.some.injEq] at h
      subst h
      rfl
    | cons b1 rest => exact Option.noConfusion h
  | succ fuel ih =>
    intro b s h
    cases b with
    | nil =>
      simp only [utf8DecodeAux, Option.some.injEq] at h
      subst h
      rfl
    | cons b1 rest =>
      rw [utf8DecodeAux] at h
      split at h
      next c rem hstep =>
        cases hd : utf8DecodeAux fuel rem with
        | none => rw [hd] at h; simp at h
        | some sx =>
          rw [hd] at h
          simp at h
          subst h
          have hrem := ih rem sx hd
          have hchar := utf8DecodeChar_spec b1 c rest rem hstep
          calc utf8Encode (c :: sx)
              = utf8EncodeChar c ++ utf8Encode sx := by
                simp [utf8Encode]
            _ = utf8EncodeChar c ++ rem := by rw [hrem]
            _ = b1 :: rest := hchar
      next hstep => exact Option.noConfusion h

/-- Re-encoding a successfully decoded byte string reproduces it: strict
UTF-8 decoding inverts UTF-8 encoding on its image. -/
theorem utf8Encode_utf8Decode (b s : List Nat) (h : utf8Decode b = some s) :
    utf8Encode s = b :=
  utf8DecodeAux_encode b.length b s h

/-- A successfully decoded code point is never a surrogate: the decoder
rejects 0xD800-0xDFFF (1- and 2-byte forms are below the range, the 3-byte
form checks it explicitly, the 4-byte form is above it). -/
theorem utf8DecodeChar_scalar (b1 c : Nat) (rest rem : List Nat)
    (h : utf8DecodeChar b1 rest = some (c, rem)) :
    ¬ (0xd800 ≤ c ∧ c < 0xe000) := by
  unfold utf8DecodeChar at h
  split at h
  next h1 =>
    simp only [Option.some.injEq, Prod.mk.injEq] at h
    obtain ⟨rfl, rfl⟩ := h
    omega
  next h1 =>
    split at h
    next => exact Option.noConfusion h
    next h2 =>
      split at h
      next h3 =>
        split at h
        next b2 rest2 =>
          split at h
          next hcont =>
            simp only [Option.some.injEq, Prod.mk.injEq] at h
            obtain ⟨rfl, rfl⟩ := h
            have hb2 := hcont
            simp only [isCont, Bool.and_eq_true, decide_eq_true_eq] at hb2
            omega
          next => exact Option.noConfusion h
        next => exact Option.noConfusion h
      next h3 =>
        split at h
        next h4 =>
          split at h
          next b2 b3 rest3 =>
            split at h
            next hcont =>
              split at h
              next hc =>
                simp only [Option.some.injEq, Prod.mk.injEq] at h
                obtain ⟨rfl, rfl⟩ := h
                rintro ⟨ha, hb⟩
                have htrue : (decide (55296 ≤ (b1 - 224) * 4096 +
                    (b2 - 128) * 64 + (b3 - 128)) &&
                    decide ((b1 - 224) * 4096 + (b2 - 128) * 64 +
                      (b3 - 128) < 57344)) = true := by
                  simp only [Bool.and_eq_true, decide_eq_true_eq]
                  exact ⟨ha, hb⟩
                rw [htrue] at hc
                simp at hc
              next => exact Option.noConfusion h
            next => exact Option.noConfusion h
          next => exact Option.noConfusion h
        next h4 =>
          split at h
          next h5 =>
            split at h
            next b2 b3 b4 rest4 =>
              split at h
              next hcont =>
                split at h
                next hc =>
                  simp only [Option.some.injEq, Prod.mk.injEq] at h
                  obtain ⟨rfl, rfl⟩ := h
                  simp only [Bool.and_eq_true, decide_eq_true_eq] at hc
                  omega
                next => exact Option.noConfusion h
              next => exact Option.noConfusion h
            next => exact Option.noConfusion h
          next => exact Option.noConfusion h

/-- The fuelled decode loop only produces UTF-8-encodable strings: no lone
surrogates ever come out of a strict decode. -/
theorem utf8DecodeAux_encodable :
    ∀ (fuel : Nat) (b s : List Nat),
      utf8DecodeAux fuel b = some s → pyEncodableUtf8 s = true := by
  intro fuel
  induction fuel with
  | zero =>
    intro b s h
    cases b with
    | nil =>
      simp only [utf8DecodeAux, Option.some.injEq] at h
      subst h
      rfl
    | cons b1 rest => exact Option.noConfusion h
  | succ fuel ih =>
    intro b s h
    cases b with
    | nil =>
      simp only [utf8DecodeAux, Option.some.injEq] at h
      subst h
      rfl
    | cons b1 rest =>
      rw [utf8DecodeAux] at h
      split at h
      next c rem hstep =>
        cases hd : utf8DecodeAux fuel rem with
        | none => rw [hd] at h; simp at h
        | some sx =>
          rw [hd] at h
          simp at h
          subst h
          have hsx := ih rem sx hd
          have hc := utf8DecodeChar_scalar b1 c rest rem hstep
          simp only [pyEncodableUtf8, List.all_cons, Bool.and_eq_true] at hsx ⊢
          refine ⟨?_, hsx⟩
          have : ¬ (55296 ≤ c) ∨ ¬ (c < 57344) := by
            by_contra hcon
            push_neg at hcon
            exact hc ⟨hcon.1, hcon.2⟩
          rcases this with h1 | h1 <;> simp [h1]
      next hstep => exact Option.noConfusion h

/-- A decoded byte string is UTF-8-encodable: re-encoding it cannot raise. -/
theorem utf8Decode_encodable (b s : List Nat) (h : utf8Decode b = some s) :
    pyEncodableUtf8 s = true :=
  utf8DecodeAux_encodable b.length b s h

/-- Whatever the handler outcome, a callback invocation's event trace starts
with the repository lookup followed by the invocation itself. -/
theorem processInvoke_head (handler : Handler) (max_attempts : Nat)
    (shipment : Shipment) (kw : Option (List Nat)) (r : RetryRecord) :
    ∃ tail, (processInvoke handler max_attempts shipment kw r).1
      = Event.repoGetById r.shipment_id
        :: Event.callbackInvoke r.shipment_id kw :: tail := by
  unfold processInvoke
  split
  · exact ⟨_, rfl⟩
  · split
    · exact ⟨_, rfl⟩
    · exact ⟨_, rfl⟩

/-- C9: a callback with a valid UTF-8 raw body that the producer enqueues is
stored with the body decoded under the reserved key `"_raw_body"`, and the
processor re-encodes exactly the original body bytes when replaying the
stored record (`utf8Encode` after `utf8Decode` is the identity on valid
input); a stored record without `"_raw_body"` is replayed with no raw-body
argument at all. -/
theorem raw_body_replay (repo : Repository) (handler rhandler : Handler)
    (slug sid rid : String) (req : CallbackRequest) (shipment : Shipment)
    (s : List Nat) (m : String) (headers2 : Headers)
    (attempts max_attempts : Nat) (r2 : RetryRecord) (shipment2 : Shipment)
    (hdec : utf8Decode req.body = some s)
    (hrepo : repo sid = Except.ok shipment)
    (hslug : shipment.provider = slug)
    (hh : handler shipment (req.json.getD []) req.headers (some req.body)
        = Except.error (FlowErr.comm m))
    (hatt : attempts < max_attempts)
    (hatt2 : r2.attempts < max_attempts)
    (hrepo2 : repo r2.shipment_id = Except.ok shipment2)
    (hraw2 : dictGet r2.payload "_raw_body" = none) :
    (provider_callback repo handler true slug sid req).1
      = [Event.repoGetById sid, Event.callbackInvoke sid (some req.body),
         Event.storeFailedCallback sid slug
           (dictSet (req.json.getD []) "_raw_body" (JsonVal.str s))
           req.headers]
    ∧ (∃ tail,
        (processRetry repo rhandler max_attempts
            ⟨rid, sid, dictSet (req.json.getD []) "_raw_body" (JsonVal.str s),
             headers2, attempts⟩).1
          = Event.repoGetById sid
            :: Event.callbackInvoke sid (some req.body) :: tail)
    ∧ (∃ tail2,
        (processRetry repo rhandler max_attempts r2).1
          = Event.repoGetById r2.shipment_id
            :: Event.callbackInvoke r2.shipment_id none :: tail2) := by
  refine ⟨?_, ?_, ?_⟩
  · simp [provider_callback, hrepo, hslug, hh, hdec]
  · have hkw : callbackKwargs
        (dictSet (req.json.getD []) "_raw_body" (JsonVal.str s))
        = Except.ok (some req.body) := by
      simp only [callbackKwargs, dictGet_dictSet,
        utf8Decode_encodable req.body s hdec, if_true,
        utf8Encode_utf8Decode req.body s hdec]
    have hrec : processRetry repo rhandler max_attempts
        ⟨rid, sid, dictSet (req.json.getD []) "_raw_body" (JsonVal.str s),
         headers2, attempts⟩
        = processInvoke rhandler max_attempts shipment (some req.body)
            ⟨rid, sid, dictSet (req.json.getD []) "_raw_body" (JsonVal.str s),
             headers2, attempts⟩ := by
      simp only [processRetry, ge_iff_le,
        if_neg (show ¬ max_attempts ≤ attempts by omega), hrepo, hkw]
    obtain ⟨tail, htail⟩ := processInvoke_head rhandler max_attempts shipment
      (some req.body)
      ⟨rid, sid, dictSet (req.json.getD []) "_raw_body" (JsonVal.str s),
       headers2, attempts⟩
    exact ⟨tail, by rw [hrec]; exact htail⟩
  · have hkw2 : callbackKwargs r2.payload = Except.ok none := by
      unfold callbackKwargs
      rw [hraw2]
    have hrec2 : processRetry repo rhandler max_attempts r2
        = processInvoke rhandler max_attempts shipment2 none r2 := by
      simp only [processRetry, ge_iff_le,
        if_neg (show ¬ max_attempts ≤ r2.attempts by omega), hrepo2, hkw2]
    obtain ⟨tail2, htail2⟩ := processInvoke_head rhandler max_attempts
      shipment2 none r2
    exact ⟨tail2, by rw [hrec2]; exact htail2⟩

/-- Witness for C9 with body bytes `[104, 105]` ("hi"): the producer stores
`"_raw_body" = "hi"`, replay re-encodes exactly `[104, 105]`, and a record
without the key replays with no raw-body argument. -/
theorem raw_body_replay_witness :
    (provider_callback (fun _ => Except.ok ⟨"s1", "dummy", "label_ready"⟩)
        (fun _ _ _ _ => Except.error (FlowErr.comm "down")) true "dummy" "s1"
        ⟨[104, 105], none, []⟩).1
      = [Event.repoGetById "s1", Event.callbackInvoke "s1" (some [104, 105]),
         Event.storeFailedCallback "s1" "dummy"
           [("_raw_body", JsonVal.str [104, 105])] []]
    ∧ (∃ tail,
        (processRetry (fun _ => Except.ok ⟨"s1", "dummy", "label_ready"⟩)
            (fun s _ _ _ => Except.ok s) 5
            ⟨"r1", "s1", [("_raw_body", JsonVal.str [104, 105])], [], 0⟩).1
          = Event.repoGetById "s1"
            :: Event.callbackInvoke "s1" (some [104, 105]) :: tail)
    ∧ (∃ tail2,
        (processRetry (fun _ => Except.ok ⟨"s1", "dummy", "label_ready"⟩)
            (fun s _ _ _ => Except.ok s) 5 ⟨"r2", "s1", [], [], 0⟩).1
          = Event.repoGetById "s1"
            :: Event.callbackInvoke "s1" none :: tail2) :=
  raw_body_replay (fun _ => Except.ok ⟨"s1", "dummy", "label_ready"⟩)
    (fun _ _ _ _ => Except.error (FlowErr.comm "down"))
    (fun s _ _ _ => Except.ok s) "dummy" "s1" "r1" ⟨[104, 105], none, []⟩
    ⟨"s1", "dummy", "label_ready"⟩ [104, 105] "down" [] 0 5
    ⟨"r2", "s1", [], [], 0⟩ ⟨"s1", "dummy", "label_ready"⟩
    (by decide) rfl rfl rfl (by norm_num) (by norm_num) rfl rfl

end Sendparcel
